import Mathlib

set_option maxRecDepth 8000

/-!
Verification development for the ai-support-agent repository.

The development shallowly embeds three subsystems of the repository:

* the ticket workflow state machine of `workflow.py` (class `SupportWorkflow`,
  its eleven graph nodes and five conditional-routing functions, driven by a
  step-bounded graph executor mirroring the graph library invocation with its
  default recursion limit of 25 super-steps);
* the LRU/TTL response cache of `src/cache.py` (class `ResponseCache`);
* the worker pool of `src/worker_pool.py` (class `WorkerPool`).

Modelling conventions:

* Python floats are modelled by exact fractions (`Frac`, an unnormalised
  `Int`-numerator / `Nat`-denominator pair); every float constant in the
  source is a short decimal, and every comparison performed by the source is
  far from the region where binary-float rounding could flip its outcome.
* Python strings are modelled by `String`, with the relevant operations
  (lower-casing, trimming, substring test, whitespace splitting) implemented
  over `List Char` so that all of them compute by kernel reduction.
* Wall-clock readings (`datetime.now`, `time.perf_counter`) are supplied as
  explicit integer parameters where the logic depends on them (cache TTL) and
  omitted where they feed pure diagnostics (timing metrics).
* The external classification and generation services are supplied as oracles:
  functions from the attempt index to `Except String result`, an `.error e`
  outcome standing for a raised exception with message `e`.
-/

namespace SupportAgent

/-! ## String utilities (Python `lower`, `strip`, `in`, `split`) -/

/-- Python `pat in s` on lists of characters: `pat` occurs as a contiguous
infix of `s` (the empty pattern always matches, as in Python). -/
def charsContains (pat : List Char) : List Char → Bool
  | [] => pat.isEmpty
  | c :: rest => pat.isPrefixOf (c :: rest) || charsContains pat rest

/-- Python `pat in s` for strings. -/
def strContains (s pat : String) : Bool :=
  charsContains pat.data s.data

/-- Python `s.lower()` (ASCII case folding, the only case appearing in the
source texts). -/
def strLower (s : String) : String :=
  ⟨s.data.map Char.toLower⟩

/-- Python `s.strip()`: drop leading and trailing whitespace. -/
def strTrim (s : String) : String :=
  ⟨((s.data.dropWhile Char.isWhitespace).reverse.dropWhile Char.isWhitespace).reverse⟩

/-- Python `len(s)` (number of code points). -/
def strLen (s : String) : Nat :=
  s.data.length

/-- Python `sum(1 for word in words if word in text)`. -/
def countContained (words : List String) (text : String) : Nat :=
  (words.filter (fun w => strContains text w)).length

/-- Python `s.split()`: split on whitespace runs, dropping empty pieces. -/
def splitWs (s : String) : List String :=
  ((s.data.splitOnP Char.isWhitespace).map (fun l => String.mk l)).filter (fun p => p ≠ "")

/-- Python `" ".join(parts)`. -/
def joinSpace (parts : List String) : String :=
  String.intercalate " " parts

/-! ## Exact fractions standing for Python floats

All float arithmetic in the source combines short decimal constants with
comparisons whose outcomes are identical under exact rational arithmetic and
under IEEE doubles for every value reachable here, so an exact fraction type
is a faithful model.  The representation is left unnormalised (no gcd), which
keeps every operation kernel-computable. -/

structure Frac where
  num : Int
  den : Nat
  deriving Repr, DecidableEq

/-- `a < b` by cross multiplication (denominators are positive throughout). -/
def Frac.blt (a b : Frac) : Bool :=
  a.num * (b.den : Int) < b.num * (a.den : Int)

/-- `a ≤ b` by cross multiplication. -/
def Frac.ble (a b : Frac) : Bool :=
  a.num * (b.den : Int) ≤ b.num * (a.den : Int)

/-- Product of fractions. -/
def Frac.mul (a b : Frac) : Frac :=
  ⟨a.num * b.num, a.den * b.den⟩

/-- Difference of fractions. -/
def Frac.sub (a b : Frac) : Frac :=
  ⟨a.num * (b.den : Int) - b.num * (a.den : Int), a.den * b.den⟩

/-- The fraction `n / 100`, used for the decimal constants of the source. -/
def pct (n : Int) : Frac := ⟨n, 100⟩

/-! ## Data model (`models.py`) -/

/-- `SupportCategory` enumeration. -/
inductive SupportCategory
  | billing
  | technical
  | general
  deriving Repr, DecidableEq

/-- The `.value` string of a category. -/
def SupportCategory.value : SupportCategory → String
  | .billing => "billing"
  | .technical => "technical"
  | .general => "general"

/-- `Priority` enumeration. -/
inductive Priority
  | low
  | medium
  | high
  | urgent
  deriving Repr, DecidableEq

/-- Rank realising the order LOW < MEDIUM < HIGH < URGENT used by the
specification when it speaks of raising or lowering a priority. -/
def Priority.rank : Priority → Nat
  | .low => 0
  | .medium => 1
  | .high => 2
  | .urgent => 3

/-- `TicketStatus` enumeration. -/
inductive TicketStatus
  | new
  | classified
  | routed
  | processing
  | escalated
  | resolved
  | closed
  | failed
  deriving Repr, DecidableEq

/-- `EscalationReason` enumeration. -/
inductive EscalationReason
  | lowConfidence
  | complexIssue
  | sentimentNegative
  | manualRequest
  | technicalLimitation
  deriving Repr, DecidableEq

/-- `EscalationInfo` dataclass (the optional estimated resolution time is
never set by the workflow and is omitted). -/
structure EscalationInfo where
  reason : EscalationReason
  suggestedDepartment : String
  humanAgentRequired : Bool := false
  urgencyScore : Frac := ⟨0, 1⟩
  deriving Repr, DecidableEq

/-- `ClassificationResult` dataclass (timing and worker id omitted: pure
diagnostics). -/
structure ClassificationResult where
  category : SupportCategory
  confidence : Frac
  deriving Repr, DecidableEq

/-- `SupportResponse` dataclass of the top-level `models.py` (timing field
omitted).  The escalation and error paths construct responses with
`category=None`, hence the option. -/
structure SupportResponse where
  message : String
  category : Option SupportCategory
  confidence : Frac
  deriving Repr, DecidableEq

/-- `ConversationContext` dataclass; `previous_interactions` is modelled by
its length, the only aspect the workflow reads (and appends to). -/
structure ConversationContext where
  userSentiment : Option String := none
  customerTier : String := "standard"
  previousInteractions : Nat := 0
  deriving Repr, DecidableEq

/-- `WorkflowState` TypedDict of `models/WorkflowState.py`.  The
`debug_info`, `alternative_responses` and `user_feedback` entries are pure
diagnostics never read by any decision and are omitted; of
`processing_metrics` only the `api_calls_made` counter is kept (the other
fields are wall-clock timings). -/
structure WorkflowState where
  ticketId : String
  questionText : String
  status : TicketStatus
  priority : Priority
  classification : Option ClassificationResult
  confidenceThreshold : Frac
  requiresEscalation : Bool
  escalationInfo : Option EscalationInfo
  response : Option SupportResponse
  conversationContext : ConversationContext
  errors : List String
  warnings : List String
  retryCount : Nat
  maxRetries : Nat
  shouldContinue : Bool
  nextAction : Option String
  apiCallsMade : Nat
  deriving Repr, DecidableEq

/-! ## SupportWorkflow configuration constants (`workflow.py`, `__init__` and
node bodies) -/

/-- `self.escalation_keywords`. -/
def escalationKeywords : List String :=
  ["speak to manager", "human agent", "cancel subscription",
   "legal action", "complaint", "terrible", "worst"]

/-- Negative sentiment lexicon of `_analyze_sentiment_node`. -/
def negativeWords : List String :=
  ["angry", "frustrated", "terrible", "awful", "hate", "worst", "horrible"]

/-- Positive sentiment lexicon of `_analyze_sentiment_node`. -/
def positiveWords : List String :=
  ["great", "excellent", "love", "amazing", "wonderful", "perfect"]

/-- Urgency indicators of `_validate_input_node`. -/
def urgencyWords : List String :=
  ["urgent", "emergency", "asap", "immediately"]

/-- Soft urgency indicators of `_validate_input_node`. -/
def soonWords : List String :=
  ["soon", "quick", "fast"]

/-- `generic_phrases` of `_quality_check_node`. -/
def genericPhrases : List String :=
  ["I\x27m here to help", "Thank you for contacting", "Let me assist"]

/-- `category_keywords` of `_quality_check_node`. -/
def categoryKeywords : SupportCategory → List String
  | .billing => ["payment", "charge", "invoice", "billing", "account"]
  | .technical => ["technical", "error", "bug", "issue", "troubleshoot"]
  | .general => ["help", "information", "question", "support"]

/-! ## Workflow nodes (`workflow.py`)

Each node is a pure function on `WorkflowState`.  The two nodes that call
external services take the outcome of that call as an argument.  `print`
statements and writes to `debug_info` are omitted throughout. -/

/-- `_initialize_node`.  The ticket id is `TICKET-` followed by eight hex
digits of a fresh uuid, supplied here as the `ticketHex` argument. -/
def initializeNode (ticketHex : String) (s : WorkflowState) : WorkflowState :=
  { s with
    ticketId := "TICKET-" ++ ticketHex
    status := TicketStatus.new
    priority := Priority.medium
    confidenceThreshold := pct 75
    requiresEscalation := false
    errors := []
    warnings := []
    retryCount := 0
    maxRetries := 3
    shouldContinue := true
    apiCallsMade := 0 }

/-- `_validate_input_node`.  The body raises no exception for string input,
so the `except` arm is dead and not modelled. -/
def validateInputNode (s : WorkflowState) : WorkflowState :=
  let question := s.questionText
  if question = "" || strLen (strTrim question) < 3 then
    { s with errors := s.errors ++ ["Question too short"], shouldContinue := false }
  else
    let textLower := strLower question
    let escalationDetected := escalationKeywords.any (fun k => strContains textLower k)
    let s1 :=
      if escalationDetected then
        { s with
          requiresEscalation := true
          priority := Priority.high
          escalationInfo := some
            { reason := EscalationReason.manualRequest
              suggestedDepartment := "customer_relations"
              humanAgentRequired := true }
          warnings := s.warnings ++ ["Escalation keywords detected"] }
      else s
    let s2 :=
      if urgencyWords.any (fun w => strContains textLower w) then
        { s1 with priority := Priority.high }
      else if soonWords.any (fun w => strContains textLower w) then
        { s1 with priority := Priority.medium }
      else s1
    { s2 with status := TicketStatus.classified }

/-- `_analyze_sentiment_node`.  The body raises no exception for string
input, so the `except` arm (which only appends a warning) is dead. -/
def analyzeSentimentNode (s : WorkflowState) : WorkflowState :=
  let text := strLower s.questionText
  let negativeCount := countContained negativeWords text
  let positiveCount := countContained positiveWords text
  if negativeCount > positiveCount then
    let s1 :=
      if negativeCount ≥ 2 then
        { s with
          priority := Priority.high
          requiresEscalation := true
          escalationInfo := some
            { reason := EscalationReason.sentimentNegative
              suggestedDepartment := "customer_relations"
              urgencyScore := pct 80 } }
      else s
    { s1 with conversationContext :=
        { s1.conversationContext with userSentiment := some "negative" } }
  else if positiveCount > negativeCount then
    { s with conversationContext :=
        { s.conversationContext with userSentiment := some "positive" } }
  else
    { s with conversationContext :=
        { s.conversationContext with userSentiment := some "neutral" } }

/-- `_classify_question_node`.  `res` is the outcome of
`self.classifier.classify`; a raised exception arrives as `.error msg`. -/
def classifyQuestionNode (res : Except String ClassificationResult)
    (s : WorkflowState) : WorkflowState :=
  match res with
  | .ok classification =>
      { s with
        classification := some classification
        apiCallsMade := s.apiCallsMade + 1 }
  | .error e =>
      { s with
        errors := s.errors ++ ["Classification error: " ++ e]
        retryCount := s.retryCount + 1 }

/-- `_check_confidence_node`.  The tier-adjusted threshold is a local
variable in the source: it is compared against, but never written back to
`state["confidence_threshold"]`. -/
def checkConfidenceNode (s : WorkflowState) : WorkflowState :=
  match s.classification with
  | none => { s with requiresEscalation := true }
  | some classification =>
      let confidence := classification.confidence
      let threshold := s.confidenceThreshold
      let tier := s.conversationContext.customerTier
      let threshold :=
        if tier = "enterprise" then threshold.mul (pct 90)
        else if tier = "premium" then threshold.mul (pct 95)
        else threshold
      if confidence.blt threshold then
        { s with
          requiresEscalation := true
          escalationInfo := some
            { reason := EscalationReason.lowConfidence
              suggestedDepartment := classification.category.value
              urgencyScore := Frac.sub ⟨1, 1⟩ confidence } }
      else s

/-- `_route_to_specialist_node`: records routing/debug data (omitted) and
advances the status.  It reads `state["classification"].category`, which is
always set on this path (`high_confidence` routing requires it). -/
def routeToSpecialistNode (s : WorkflowState) : WorkflowState :=
  { s with status := TicketStatus.routed }

/-- `_generate_response_node`.  `res` is the outcome of
`self.handler.handle` on the enhanced question. -/
def generateResponseNode (res : Except String SupportResponse)
    (s : WorkflowState) : WorkflowState :=
  match s.classification with
  | none =>
      { s with errors := s.errors ++ ["No classification available for response generation"] }
  | some _ =>
      match res with
      | .ok response =>
          { s with
            response := some response
            apiCallsMade := s.apiCallsMade + 1
            status := TicketStatus.processing }
      | .error e =>
          { s with
            errors := s.errors ++ ["Response generation error: " ++ e]
            retryCount := s.retryCount + 1 }

/-- `_quality_check_node`.  Score starts at 1.0; length, boilerplate and
category-keyword penalties are subtracted; `next_action` is set from the
score and the retry budget.  Note that the node never increments
`retry_count`.  When `classification` is `None` the source would raise
(unreachable from `process`, since `quality_check` is only entered after a
successful generation, which requires a classification). -/
def qualityCheckNode (s : WorkflowState) : WorkflowState :=
  match s.response with
  | none => s
  | some response =>
      let score0 : Frac := ⟨1, 1⟩
      let msgLen := strLen response.message
      let score1 :=
        if msgLen < 20 then score0.sub (pct 30)
        else if msgLen > 1000 then score0.sub (pct 20)
        else score0
      let score2 :=
        if genericPhrases.any (fun p => strContains response.message p) then
          score1.sub (pct 10)
        else score1
      let expectedKeywords :=
        match s.classification with
        | some c => categoryKeywords c.category
        | none => []
      let score3 :=
        if !(expectedKeywords.any (fun k => strContains (strLower response.message) k)) then
          score2.sub (pct 20)
        else score2
      if score3.blt (pct 60) then
        if s.retryCount < s.maxRetries then
          { s with
            warnings := s.warnings ++ ["Low quality response"]
            nextAction := some "retry" }
        else
          { s with
            warnings := s.warnings ++ ["Low quality response"]
            nextAction := some "escalate" }
      else
        { s with nextAction := some "approve" }

/-- The canned human-handoff message of `_escalate_to_human_node`. -/
def escalationMessage (ticketId : String) : String :=
  "I understand this requires special attention. I\x27m connecting you with a human specialist who can better assist you. Your ticket "
    ++ ticketId ++ " has been prioritized."

/-- `_escalate_to_human_node`.  The locally defaulted `escalation_info`
feeds only the debug output and is not written back to the state. -/
def escalateToHumanNode (s : WorkflowState) : WorkflowState :=
  let escalationResponse : SupportResponse :=
    { message := escalationMessage s.ticketId
      category := s.classification.map (fun c => c.category)
      confidence := ⟨1, 1⟩ }
  { s with
    response := some escalationResponse
    status := TicketStatus.escalated }

/-- `_finalize_response_node`: appends a summary entry to the conversation
context and unconditionally sets the status to RESOLVED (total-time metric
omitted: wall clock). -/
def finalizeResponseNode (s : WorkflowState) : WorkflowState :=
  { s with
    conversationContext :=
      { s.conversationContext with
        previousInteractions := s.conversationContext.previousInteractions + 1 }
    status := TicketStatus.resolved }

/-- The fallback message of `_handle_error_node`. -/
def errorFallbackMessage : String :=
  "I apologize, but I\x27m experiencing some technical difficulties. A human agent will be with you shortly to assist with your request."

/-- `_handle_error_node`. -/
def handleErrorNode (s : WorkflowState) : WorkflowState :=
  { s with
    response := some
      { message := errorFallbackMessage, category := none, confidence := ⟨0, 1⟩ }
    status := TicketStatus.failed }

/-! ## Conditional routing functions (`workflow.py`) -/

/-- `_should_continue_after_validation`. -/
def shouldContinueAfterValidation (s : WorkflowState) : String :=
  if s.shouldContinue && s.errors.isEmpty then "continue" else "error"

/-- `_should_continue_after_classification`. -/
def shouldContinueAfterClassification (s : WorkflowState) : String :=
  if !s.errors.isEmpty && s.retryCount ≥ s.maxRetries then "error"
  else if !s.errors.isEmpty then "retry"
  else "continue"

/-- `_confidence_routing`.  It compares against the stored, unadjusted
`state["confidence_threshold"]`. -/
def confidenceRouting (s : WorkflowState) : String :=
  if s.requiresEscalation then "needs_human"
  else
    match s.classification with
    | some classification =>
        if Frac.ble s.confidenceThreshold classification.confidence then "high_confidence"
        else "low_confidence"
    | none => "low_confidence"

/-- `_should_continue_after_response`. -/
def shouldContinueAfterResponse (s : WorkflowState) : String :=
  if !s.errors.isEmpty && s.retryCount ≥ s.maxRetries then "error"
  else if !s.errors.isEmpty then "retry"
  else "continue"

/-- `_quality_check_routing`. -/
def qualityCheckRouting (s : WorkflowState) : String :=
  let nextAction := s.nextAction.getD "approve"
  if nextAction = "retry" then "needs_improvement"
  else if nextAction = "escalate" then "escalate"
  else "approved"

/-! ## Graph driver

The compiled graph of `_build_workflow` is a fixed topology executed one
node per super-step; the library invocation raises `GraphRecursionError`
once the default limit of 25 super-steps is exhausted, which `process`
catches. -/

/-- The graph nodes of `_build_workflow`, plus the terminal END marker. -/
inductive Node
  | initialization
  | validateInput
  | analyzeSentiment
  | classifyQuestion
  | checkConfidence
  | routeToSpecialist
  | generateResponse
  | qualityCheck
  | escalateToHuman
  | finalizeResponse
  | handleError
  | endNode
  deriving Repr, DecidableEq

/-- External collaborators of one `process` call: the fresh uuid fragment
for the ticket id and the classification/generation services, indexed by
attempt number. -/
structure Services where
  ticketHex : String
  classify : Nat → Except String ClassificationResult
  generate : Nat → Except String SupportResponse

/-- A point of graph execution: current node, state, and how many calls
each external service has received. -/
structure ExecState where
  node : Node
  ws : WorkflowState
  classifyCalls : Nat
  generateCalls : Nat
  deriving Repr, DecidableEq

/-- One super-step: run the current node, then follow the (conditional)
edge of `_build_workflow` to the next node. -/
def stepExec (svc : Services) (e : ExecState) : ExecState :=
  match e.node with
  | .initialization =>
      { e with ws := initializeNode svc.ticketHex e.ws, node := .validateInput }
  | .validateInput =>
      let s := validateInputNode e.ws
      { e with ws := s
               node := if shouldContinueAfterValidation s = "continue" then
                         Node.analyzeSentiment
                       else Node.handleError }
  | .analyzeSentiment =>
      { e with ws := analyzeSentimentNode e.ws, node := .classifyQuestion }
  | .classifyQuestion =>
      let s := classifyQuestionNode (svc.classify e.classifyCalls) e.ws
      let r := shouldContinueAfterClassification s
      { e with ws := s
               classifyCalls := e.classifyCalls + 1
               node := if r = "continue" then Node.checkConfidence
                       else if r = "retry" then Node.classifyQuestion
                       else Node.handleError }
  | .checkConfidence =>
      let s := checkConfidenceNode e.ws
      let r := confidenceRouting s
      { e with ws := s
               node := if r = "high_confidence" then Node.routeToSpecialist
                       else Node.escalateToHuman }
  | .routeToSpecialist =>
      { e with ws := routeToSpecialistNode e.ws, node := .generateResponse }
  | .generateResponse =>
      let s := generateResponseNode (svc.generate e.generateCalls) e.ws
      let r := shouldContinueAfterResponse s
      { e with ws := s
               generateCalls := e.generateCalls + 1
               node := if r = "continue" then Node.qualityCheck
                       else if r = "retry" then Node.generateResponse
                       else Node.handleError }
  | .qualityCheck =>
      let s := qualityCheckNode e.ws
      let r := qualityCheckRouting s
      { e with ws := s
               node := if r = "approved" then Node.finalizeResponse
                       else if r = "needs_improvement" then Node.generateResponse
                       else Node.escalateToHuman }
  | .escalateToHuman =>
      { e with ws := escalateToHumanNode e.ws, node := .finalizeResponse }
  | .finalizeResponse =>
      { e with ws := finalizeResponseNode e.ws, node := .endNode }
  | .handleError =>
      { e with ws := handleErrorNode e.ws, node := .endNode }
  | .endNode => e

/-- The `initial_state` dictionary built inside `process`. -/
def initialWorkflowState (questionText : String) (ctx : ConversationContext) :
    WorkflowState :=
  { ticketId := ""
    questionText := questionText
    status := TicketStatus.new
    priority := Priority.medium
    classification := none
    confidenceThreshold := pct 75
    requiresEscalation := false
    escalationInfo := none
    response := none
    conversationContext := ctx
    errors := []
    warnings := []
    retryCount := 0
    maxRetries := 3
    shouldContinue := true
    nextAction := none
    apiCallsMade := 0 }

/-- Execution entry point of one `process` call. -/
def initialExec (questionText : String) (ctx : ConversationContext) : ExecState :=
  { node := Node.initialization
    ws := initialWorkflowState questionText ctx
    classifyCalls := 0
    generateCalls := 0 }

/-- `self.workflow.invoke`: run up to `fuel` super-steps; `none` models the
`GraphRecursionError` raised when END is not reached within the limit. -/
def invokeGraph (svc : Services) : Nat → ExecState → Option WorkflowState
  | 0, e => if e.node = Node.endNode then some e.ws else none
  | n + 1, e =>
      if e.node = Node.endNode then some e.ws
      else invokeGraph svc n (stepExec svc e)

/-- The graph library's default recursion limit. -/
def recursionLimit : Nat := 25

/-- `GraphState` as populated by `GraphState.from_workflow_result` and by
the error arm of `process` (diagnostic-only fields omitted). -/
structure GraphStateR where
  questionText : String
  classification : Option ClassificationResult
  response : Option SupportResponse
  error : Option String
  ticketId : String
  status : TicketStatus
  requiresEscalation : Bool
  errors : List String
  deriving Repr, DecidableEq

/-- `GraphState.from_workflow_result`. -/
def fromWorkflowResult (questionText : String) (ws : WorkflowState) : GraphStateR :=
  { questionText := questionText
    classification := ws.classification
    response := ws.response
    error := ws.errors.head?
    ticketId := ws.ticketId
    status := ws.status
    requiresEscalation := ws.requiresEscalation
    errors := ws.errors }

/-- `SupportWorkflow.process`: build the initial state, invoke the graph,
and convert the outcome; any exception escaping `invoke` (in particular the
recursion-limit error) is caught and converted to a failed `GraphState`
with no response. -/
def process (svc : Services) (questionText : String) (ctx : ConversationContext) :
    GraphStateR :=
  match invokeGraph svc recursionLimit (initialExec questionText ctx) with
  | some ws => fromWorkflowResult questionText ws
  | none =>
      { questionText := questionText
        classification := none
        response := none
        error := some "Workflow error: GraphRecursionError"
        ticketId := "ERROR"
        status := TicketStatus.failed
        requiresEscalation := false
        errors := ["GraphRecursionError"] }

/-- The sequence of execution points visited by a run (initial point first;
the list ends at END or when the step budget runs out). -/
def execTrace (svc : Services) : Nat → ExecState → List ExecState
  | 0, e => [e]
  | n + 1, e =>
      if e.node = Node.endNode then [e]
      else e :: execTrace svc n (stepExec svc e)

/-- The execution points of one `process` call under the default limit. -/
def processTrace (svc : Services) (questionText : String)
    (ctx : ConversationContext) : List ExecState :=
  execTrace svc recursionLimit (initialExec questionText ctx)

/-! ## ResponseCache (`src/cache.py`)

The cache is an ordered dictionary from key to entry, modelled as an
association list whose first element is the least recently used entry and
whose last element is the most recently used one.  The stored response is
an arbitrary payload type `R` (the cache never inspects it).  The sha256
digest of the normalised question text is abstracted to the normalised text
itself (an injective key function).  `datetime.now()` readings are supplied
as an integer `now` parameter (seconds); statistics counters and timing
lists are omitted (pure diagnostics). -/

/-- `CacheEntry` dataclass of `src/models.py`. -/
structure CacheEntryM (R : Type) where
  questionText : String
  response : R
  hitCount : Nat := 0
  createdAt : Int
  lastAccessed : Int
  deriving Repr, DecidableEq

/-- The cache state: LRU-ordered entries plus configuration. -/
structure CacheState (R : Type) where
  entries : List (String × CacheEntryM R)
  maxSize : Nat
  ttlSeconds : Int
  deriving Repr, DecidableEq

/-- `_generate_cache_key`: lower-case, strip, collapse whitespace (the
final sha256 digest is abstracted away). -/
def cacheKey (q : String) : String :=
  joinSpace (splitWs (strTrim (strLower q)))

/-- `_is_expired`: a non-positive TTL disables expiry. -/
def entryExpired {R : Type} (ttlSeconds : Int) (entry : CacheEntryM R) (now : Int) : Bool :=
  if ttlSeconds ≤ 0 then false else ttlSeconds < now - entry.createdAt

/-- Delete a key from the ordered dictionary. -/
def eraseKey {R : Type} (entries : List (String × CacheEntryM R)) (key : String) :
    List (String × CacheEntryM R) :=
  entries.filter (fun p => p.1 ≠ key)

/-- Ordered-dictionary assignment `d[key] = entry`: an existing key keeps
its position, a new key is appended at the most-recently-used end. -/
def odAssign {R : Type} (entries : List (String × CacheEntryM R)) (key : String)
    (entry : CacheEntryM R) : List (String × CacheEntryM R) :=
  if entries.any (fun p => p.1 = key) then
    entries.map (fun p => if p.1 = key then (key, entry) else p)
  else entries ++ [(key, entry)]

/-- `ResponseCache.get`: miss on absent key; TTL check with eviction of the
expired entry; on a hit, move to the most-recently-used end and bump the
access bookkeeping. -/
def cacheGet {R : Type} (c : CacheState R) (q : String) (now : Int) :
    CacheState R × Option R :=
  let key := cacheKey q
  match c.entries.find? (fun p => p.1 = key) with
  | none => (c, none)
  | some (_, entry) =>
      if entryExpired c.ttlSeconds entry now then
        ({ c with entries := eraseKey c.entries key }, none)
      else
        let entry' := { entry with hitCount := entry.hitCount + 1, lastAccessed := now }
        ({ c with entries := eraseKey c.entries key ++ [(key, entry')] }, some entry.response)

/-- The `while len(self._cache) >= self.max_size: self._evict_lru()` loop of
`put`, with explicit fuel.  `_evict_lru` removes the first (least recently
used) item and is a no-op on an empty dictionary; when `maxSize = 0` the
source loop therefore never terminates — with any `maxSize ≥ 1` and fuel at
least the list length the fuel never runs out. -/
def evictWhileFull {R : Type} (maxSize : Nat) :
    Nat → List (String × CacheEntryM R) → List (String × CacheEntryM R)
  | 0, entries => entries
  | fuel + 1, entries =>
      if maxSize ≤ entries.length then
        match entries with
        | [] => []
        | _ :: rest => evictWhileFull maxSize fuel rest
      else entries

/-- The `CacheEntry` built inside `put`. -/
def freshEntry {R : Type} (q : String) (r : R) (now : Int) : CacheEntryM R :=
  { questionText := q, response := r, hitCount := 0, createdAt := now, lastAccessed := now }

/-- `ResponseCache.put`: evict least-recently-used entries while at
capacity, then store the fresh entry at the most-recently-used end (the
assignment followed by `move_to_end`). -/
def cachePut {R : Type} (c : CacheState R) (q : String) (r : R) (now : Int) :
    CacheState R :=
  let key := cacheKey q
  let entry := freshEntry q r now
  let entries := evictWhileFull c.maxSize (c.entries.length + 1) c.entries
  { c with entries := eraseKey entries key ++ [(key, entry)] }

/-- `ResponseCache.invalidate`. -/
def cacheInvalidate {R : Type} (c : CacheState R) (q : String) :
    CacheState R × Bool :=
  let key := cacheKey q
  if c.entries.any (fun p => p.1 = key) then
    ({ c with entries := eraseKey c.entries key }, true)
  else (c, false)

/-- `ResponseCache.cleanup_expired`. -/
def cacheCleanupExpired {R : Type} (c : CacheState R) (now : Int) :
    CacheState R × Nat :=
  let expiredCount := (c.entries.filter (fun p => entryExpired c.ttlSeconds p.2 now)).length
  ({ c with entries := c.entries.filter (fun p => !entryExpired c.ttlSeconds p.2 now) },
   expiredCount)

/-- `ResponseCache.optimize_cache`: drop entries unaccessed for more than an
hour with at most one hit; then, if still above 80% of capacity, drop the
lowest-hit-count 20% (Python `sorted` is a stable sort, modelled by the
stable `insertionSort`; the float comparisons `len > max_size * 0.8` and
`int(len * 0.2)` agree with exact arithmetic at every reachable size). -/
def cacheOptimize {R : Type} (c : CacheState R) (now : Int) : CacheState R :=
  let cutoff := now - 3600
  let isStale := fun (p : String × CacheEntryM R) =>
    p.2.lastAccessed < cutoff && p.2.hitCount ≤ 1
  let entries1 := c.entries.filter (fun p => !isStale p)
  let entries2 :=
    if 4 * c.maxSize < 5 * entries1.length then
      let sorted := entries1.insertionSort
        (fun a b => a.2.hitCount ≤ b.2.hitCount)
      let removeCount := entries1.length / 5
      let removeKeys := (sorted.take removeCount).map (fun p => p.1)
      entries1.filter (fun p => !removeKeys.contains p.1)
    else entries1
  { c with entries := entries2 }

/-- The loop body of `ResponseCache.import_cache_data`: each valid,
unexpired entry is assigned into the dictionary and counted, and only THEN
is the size bound checked (`if len(self._cache) >= self.max_size: break`).
Invalid entries are skipped by the `except: continue`; `items` models the
already-valid entries in iteration order. -/
def cacheImportLoop {R : Type} (maxSize : Nat) (ttlSeconds : Int) (now : Int) :
    List (String × CacheEntryM R) → List (String × CacheEntryM R) →
      List (String × CacheEntryM R) × Nat
  | entries, [] => (entries, 0)
  | entries, (key, entry) :: rest =>
      let step :=
        if entryExpired ttlSeconds entry now then (entries, 0)
        else (odAssign entries key entry, 1)
      if maxSize ≤ step.1.length then step
      else
        let tail := cacheImportLoop maxSize ttlSeconds now step.1 rest
        (tail.1, step.2 + tail.2)

/-- `ResponseCache.import_cache_data`. -/
def cacheImportData {R : Type} (c : CacheState R)
    (items : List (String × CacheEntryM R)) (now : Int) : CacheState R × Nat :=
  let out := cacheImportLoop c.maxSize c.ttlSeconds now c.entries items
  ({ c with entries := out.1 }, out.2)

/-- A cache constructed with the given bounds (`__init__` starts empty). -/
def emptyCache (R : Type) (maxSize : Nat) (ttlSeconds : Int) : CacheState R :=
  { entries := [], maxSize := maxSize, ttlSeconds := ttlSeconds }

/-- One cache operation, for reasoning about operation sequences. -/
inductive CacheOp (R : Type) where
  | put (q : String) (r : R) (now : Int)
  | get (q : String) (now : Int)
  | invalidate (q : String)
  | cleanupExpired (now : Int)
  | optimizeCache (now : Int)
  | importData (items : List (String × CacheEntryM R)) (now : Int)

/-- Whether an operation is `import_cache_data`. -/
def CacheOp.isImport {R : Type} : CacheOp R → Bool
  | .importData _ _ => true
  | _ => false

/-- Apply one operation (auxiliary outputs discarded). -/
def applyOp {R : Type} (c : CacheState R) : CacheOp R → CacheState R
  | .put q r now => cachePut c q r now
  | .get q now => (cacheGet c q now).1
  | .invalidate q => (cacheInvalidate c q).1
  | .cleanupExpired now => (cacheCleanupExpired c now).1
  | .optimizeCache now => cacheOptimize c now
  | .importData items now => (cacheImportData c items now).1

/-- Apply a sequence of operations left to right. -/
def applyOps {R : Type} (c : CacheState R) (ops : List (CacheOp R)) : CacheState R :=
  ops.foldl applyOp c

/-! ## WorkerPool (`src/worker_pool.py`)

Only the submission surface is modelled (the claims touching the pool are
about `submit_question`).  Note two facts taken directly from the source:
`submit_question` performs no queue-size check of any kind (the bounded
`task_queue` constructed in `__init__` is never read or written anywhere in
the class; submissions go straight to the executor), and `__init__` ends
with `self.shutdown = False`, an instance attribute that shadows the
`shutdown` method of the same name. -/

/-- `WorkerTask` wrapper (lifecycle timestamps omitted: the claims settled
here concern submission). -/
structure WorkerTaskM where
  taskId : String
  question : String
  deriving Repr, DecidableEq

/-- The pool state visible to `submit_question`. -/
structure WorkerPoolState where
  shutdownFlag : Bool
  activeTasks : List (String × WorkerTaskM)
  maxQueueSize : Nat
  deriving Repr, DecidableEq

/-- `WorkerPool.submit_question`: reject (RuntimeError) when the shutdown
flag is set; otherwise create a `WorkerTask` under a fresh uuid (supplied
as `taskId`), record it in `active_tasks`, hand it to the executor, and
return the task id.  The source contains no capacity test. -/
def submitQuestion (p : WorkerPoolState) (taskId : String) (q : String) :
    Except String (WorkerPoolState × String) :=
  if p.shutdownFlag then Except.error "Worker pool is shutting down"
  else
    Except.ok
      ({ p with activeTasks := p.activeTasks ++ [(taskId, { taskId := taskId, question := q })] },
       taskId)

/-! ## Derived views and concrete instances used by the theorems -/

/-- The tier-adjusted threshold computed (as a local variable) inside
`_check_confidence_node`: the default threshold is scaled by 0.9 for an
enterprise customer, by 0.95 for a premium customer. -/
def adjustedThreshold (s : WorkflowState) : Frac :=
  if s.conversationContext.customerTier = "enterprise" then
    s.confidenceThreshold.mul (pct 90)
  else if s.conversationContext.customerTier = "premium" then
    s.confidenceThreshold.mul (pct 95)
  else s.confidenceThreshold

/-- Whether the conditional edge leaving `check_confidence` (node followed
by `_confidence_routing`) leads to `escalate_to_human` rather than to
`route_to_specialist`. -/
def escalatesAfterCheck (s : WorkflowState) : Bool :=
  confidenceRouting (checkConfidenceNode s) != "high_confidence"

/-- A classification service failing with a timeout on the first attempt
and succeeding confidently on every later attempt, paired with a benign
generation service. -/
def svcTransientClassify : Services :=
  { ticketHex := "AB12CD34"
    classify := fun n =>
      if n = 0 then Except.error "timeout"
      else Except.ok { category := SupportCategory.billing, confidence := pct 90 }
    generate := fun _ => Except.ok
      { message := "hello there this is a billing payment answer"
        category := some SupportCategory.billing
        confidence := pct 90 } }

/-- Services whose classification is always GENERAL at confidence 0.90 and
whose generation succeeds with an on-topic answer. -/
def svcGeneralOk : Services :=
  { ticketHex := "AB12CD34"
    classify := fun _ =>
      Except.ok { category := SupportCategory.general, confidence := pct 90 }
    generate := fun _ => Except.ok
      { message := "here is some helpful information for your question"
        category := some SupportCategory.general
        confidence := pct 90 } }

/-- A 1001-character question (all letters, nothing to trim). -/
def question1001 : String := String.mk (List.replicate 1001 'a')

/-- A state about to enter CHECK_CONFIDENCE: enterprise customer, GENERAL
classification at confidence 0.70, no escalation requested so far. -/
def enterpriseCheckState : WorkflowState :=
  { initialWorkflowState "how do widgets work" { customerTier := "enterprise" } with
      classification := some { category := SupportCategory.general, confidence := pct 70 } }

/-- One hundred distinct queued tasks, filling the pool to the configured
`MAX_QUEUE_SIZE` of 100. -/
def hundredTasks : List (String × WorkerTaskM) :=
  (List.range 100).map (fun i =>
    let key := String.mk [Char.ofNat (65 + i / 10), Char.ofNat (48 + i % 10)]
    (key, { taskId := key, question := "please help" }))

/-- A pool whose task count equals the configured queue bound, with no
shutdown requested. -/
def fullPool : WorkerPoolState :=
  { shutdownFlag := false, activeTasks := hundredTasks, maxQueueSize := 100 }

/-- A one-slot cache (TTL one hour) already holding one answer. -/
def singletonCache : CacheState String :=
  cachePut (emptyCache String 1 3600) "question a" "answer a" 0

/-- An import payload entry: fresh and unexpired. -/
def importedEntry : CacheEntryM String :=
  { questionText := "question b", response := "answer b"
    hitCount := 0, createdAt := 0, lastAccessed := 0 }

/-- A two-slot cache at capacity: question a is the least recently used
entry, question b the most recently used. -/
def twoSlotCache : CacheState String :=
  cachePut (cachePut (emptyCache String 2 3600) "question a" "answer a" 0)
    "question b" "answer b" 1

/-! ## Proof infrastructure: invariants along graph executions -/

/-- A state invariant used for the escalation-flag claim: the initialize
node (which resets the flag) is only ever visited with the flag still
clear. -/
def EscalationInvariant (e : ExecState) : Prop :=
  e.node = Node.initialization → e.ws.requiresEscalation = false

/-- Numeric view of the escalation flag, for monotonicity reasoning. -/
def escalationFlag (e : ExecState) : Nat :=
  if e.ws.requiresEscalation then 1 else 0

/-- State invariant for priority monotonicity: the two nodes that run
before any priority escalation can have happened still see the initial
MEDIUM priority, and no stage ever produces LOW or URGENT. -/
def PriorityInvariant (e : ExecState) : Prop :=
  ((e.node = Node.initialization ∨ e.node = Node.validateInput) →
      e.ws.priority = Priority.medium) ∧
  (e.ws.priority = Priority.medium ∨ e.ws.priority = Priority.high)

/-- State invariant for the retry budget: the budget is respected, the
retry counter is zero while no error has been recorded, and every node is
entered under the routing conditions that guard it in the compiled
graph. -/
def RetryInvariant (e : ExecState) : Prop :=
  e.ws.retryCount ≤ e.ws.maxRetries ∧
  (e.ws.errors = [] → e.ws.retryCount = 0) ∧
  1 ≤ e.ws.maxRetries ∧
  ((e.node = Node.classifyQuestion ∨ e.node = Node.generateResponse) →
      (e.ws.errors = [] ∨ e.ws.retryCount < e.ws.maxRetries)) ∧
  ((e.node = Node.analyzeSentiment ∨ e.node = Node.checkConfidence ∨
      e.node = Node.routeToSpecialist ∨ e.node = Node.qualityCheck) →
      e.ws.errors = [])

/-- Propagating a decidable property along a trace from an invariant. -/
theorem execTrace_all (svc : Services) (Inv : ExecState → Prop)
    (P : ExecState → Bool)
    (hstep : ∀ e, Inv e → Inv (stepExec svc e))
    (hP : ∀ e, Inv e → P e = true) :
    ∀ fuel e, Inv e → (execTrace svc fuel e).all P = true := by
  intro fuel
  induction fuel with
  | zero => intro e he; simp [execTrace, hP e he]
  | succ n ih =>
      intro e he
      by_cases hend : e.node = Node.endNode
      · simp [execTrace, hend, hP e he]
      · simp only [execTrace, hend, if_neg, ite_false, List.all_cons, hP e he,
          Bool.true_and]
        exact ih (stepExec svc e) (hstep e he)

/-- The head of a trace is minimal for any measure that never decreases
across an invariant-preserving step. -/
theorem execTrace_head_le (svc : Services) (Inv : ExecState → Prop)
    (m : ExecState → Nat)
    (hstep : ∀ e, Inv e → Inv (stepExec svc e) ∧ m e ≤ m (stepExec svc e)) :
    ∀ fuel e, Inv e → ∀ b ∈ execTrace svc fuel e, m e ≤ m b := by
  intro fuel
  induction fuel with
  | zero =>
      intro e he b hb
      simp [execTrace] at hb
      subst hb; exact le_refl _
  | succ n ih =>
      intro e he b hb
      by_cases hend : e.node = Node.endNode
      · simp [execTrace, hend] at hb; subst hb; exact le_refl _
      · simp only [execTrace, hend, ite_false, List.mem_cons, if_neg] at hb
        rcases hb with rfl | hb
        · exact le_refl _
        · exact le_trans (hstep e he).2 (ih (stepExec svc e) (hstep e he).1 b hb)

/-- A measure that never decreases across invariant-preserving steps is
pairwise monotone along the whole trace. -/
theorem execTrace_pairwise (svc : Services) (Inv : ExecState → Prop)
    (m : ExecState → Nat)
    (hstep : ∀ e, Inv e → Inv (stepExec svc e) ∧ m e ≤ m (stepExec svc e)) :
    ∀ fuel e, Inv e →
      List.Pairwise (fun a b => m a ≤ m b) (execTrace svc fuel e) := by
  intro fuel
  induction fuel with
  | zero => intro e he; simp [execTrace]
  | succ n ih =>
      intro e he
      by_cases hend : e.node = Node.endNode
      · simp [execTrace, hend]
      · simp only [execTrace, hend, ite_false, if_neg, List.pairwise_cons]
        refine ⟨?_, ih (stepExec svc e) (hstep e he).1⟩
        intro b hb
        exact le_trans (hstep e he).2
          (execTrace_head_le svc Inv m hstep n (stepExec svc e) (hstep e he).1 b hb)

/-- `_validate_input_node` never clears the escalation flag. -/
theorem validateInput_req_mono (s : WorkflowState)
    (h : s.requiresEscalation = true) :
    (validateInputNode s).requiresEscalation = true := by
  simp only [validateInputNode]
  split_ifs <;> simp_all

/-- `_analyze_sentiment_node` never clears the escalation flag. -/
theorem analyzeSentiment_req_mono (s : WorkflowState)
    (h : s.requiresEscalation = true) :
    (analyzeSentimentNode s).requiresEscalation = true := by
  simp only [analyzeSentimentNode]
  split_ifs <;> simp_all

/-- `_check_confidence_node` never clears the escalation flag. -/
theorem checkConfidence_req_mono (s : WorkflowState)
    (h : s.requiresEscalation = true) :
    (checkConfidenceNode s).requiresEscalation = true := by
  simp only [checkConfidenceNode]
  cases s.classification <;> simp_all <;> split_ifs <;> simp_all

/-- `_classify_question_node` leaves the escalation flag unchanged. -/
theorem classifyQuestion_req (res : Except String ClassificationResult)
    (s : WorkflowState) :
    (classifyQuestionNode res s).requiresEscalation = s.requiresEscalation := by
  unfold classifyQuestionNode
  cases res <;> rfl

/-- `_generate_response_node` leaves the escalation flag unchanged. -/
theorem generateResponse_req (res : Except String SupportResponse)
    (s : WorkflowState) :
    (generateResponseNode res s).requiresEscalation = s.requiresEscalation := by
  unfold generateResponseNode
  cases s.classification <;> cases res <;> rfl

/-- `_quality_check_node` leaves the escalation flag unchanged. -/
theorem qualityCheck_req (s : WorkflowState) :
    (qualityCheckNode s).requiresEscalation = s.requiresEscalation := by
  simp only [qualityCheckNode]
  cases s.response <;> simp <;> split_ifs <;> rfl

/-- No super-step ever targets the entry node again: every edge of the
compiled graph points strictly forward. -/
theorem stepExec_node_ne (svc : Services) (e : ExecState) :
    (stepExec svc e).node ≠ Node.initialization := by
  rcases e with ⟨node, ws, cc, gc⟩
  cases node <;> simp only [stepExec] <;> (try split_ifs) <;> simp

/-- Flag comparison from flag implication. -/
theorem escalationFlag_le (e f : ExecState)
    (h : e.ws.requiresEscalation = true → f.ws.requiresEscalation = true) :
    escalationFlag e ≤ escalationFlag f := by
  unfold escalationFlag
  cases hreq : e.ws.requiresEscalation
  · simp
  · simp [h hreq]

/-- One super-step preserves the escalation invariant and never lowers the
escalation flag. -/
theorem escalation_step (svc : Services) (e : ExecState)
    (he : EscalationInvariant e) :
    EscalationInvariant (stepExec svc e) ∧
      escalationFlag e ≤ escalationFlag (stepExec svc e) := by
  refine ⟨fun h => absurd h (stepExec_node_ne svc e), ?_⟩
  apply escalationFlag_le
  intro hreq
  rcases e with ⟨node, ws, cc, gc⟩
  cases node with
  | initialization =>
      have hfalse : ws.requiresEscalation = false := he rfl
      exact absurd hreq (by simp [hfalse])
  | validateInput => exact validateInput_req_mono ws hreq
  | analyzeSentiment => exact analyzeSentiment_req_mono ws hreq
  | classifyQuestion =>
      show (classifyQuestionNode (svc.classify cc) ws).requiresEscalation = true
      rw [classifyQuestion_req]; exact hreq
  | checkConfidence => exact checkConfidence_req_mono ws hreq
  | routeToSpecialist => exact hreq
  | generateResponse =>
      show (generateResponseNode (svc.generate gc) ws).requiresEscalation = true
      rw [generateResponse_req]; exact hreq
  | qualityCheck =>
      show (qualityCheckNode ws).requiresEscalation = true
      rw [qualityCheck_req]; exact hreq
  | escalateToHuman => exact hreq
  | finalizeResponse => exact hreq
  | handleError => exact hreq
  | endNode => exact hreq

/-- Except for the edge out of the entry node, no super-step targets
`validate_input`. -/
theorem stepExec_node_ne_validate (svc : Services) (e : ExecState)
    (h : e.node ≠ Node.initialization) :
    (stepExec svc e).node ≠ Node.validateInput := by
  rcases e with ⟨node, ws, cc, gc⟩
  cases node <;> simp only [stepExec] <;> (try split_ifs) <;> simp_all

/-- `_validate_input_node` maps a MEDIUM-priority state to MEDIUM or
HIGH. -/
theorem validateInput_priority (s : WorkflowState)
    (h : s.priority = Priority.medium) :
    (validateInputNode s).priority = Priority.medium ∨
      (validateInputNode s).priority = Priority.high := by
  simp only [validateInputNode]
  split_ifs <;> simp_all

/-- `_analyze_sentiment_node` keeps the priority or raises it to HIGH. -/
theorem analyzeSentiment_priority (s : WorkflowState) :
    (analyzeSentimentNode s).priority = s.priority ∨
      (analyzeSentimentNode s).priority = Priority.high := by
  simp only [analyzeSentimentNode]
  split_ifs <;> simp_all

/-- `_classify_question_node` leaves the priority unchanged. -/
theorem classifyQuestion_priority (res : Except String ClassificationResult)
    (s : WorkflowState) :
    (classifyQuestionNode res s).priority = s.priority := by
  unfold classifyQuestionNode
  cases res <;> rfl

/-- `_check_confidence_node` leaves the priority unchanged. -/
theorem checkConfidence_priority (s : WorkflowState) :
    (checkConfidenceNode s).priority = s.priority := by
  simp only [checkConfidenceNode]
  cases s.classification <;> simp_all <;> split_ifs <;> simp_all

/-- `_generate_response_node` leaves the priority unchanged. -/
theorem generateResponse_priority (res : Except String SupportResponse)
    (s : WorkflowState) :
    (generateResponseNode res s).priority = s.priority := by
  unfold generateResponseNode
  cases s.classification <;> cases res <;> rfl

/-- `_quality_check_node` leaves the priority unchanged. -/
theorem qualityCheck_priority (s : WorkflowState) :
    (qualityCheckNode s).priority = s.priority := by
  simp only [qualityCheckNode]
  cases s.response <;> simp <;> split_ifs <;> rfl

/-- One super-step preserves the priority invariant and never lowers the
priority rank. -/
theorem priority_step (svc : Services) (e : ExecState)
    (h : PriorityInvariant e) :
    PriorityInvariant (stepExec svc e) ∧
      e.ws.priority.rank ≤ (stepExec svc e).ws.priority.rank := by
  obtain ⟨hmed, hrange⟩ := h
  rcases e with ⟨node, ws, cc, gc⟩
  cases node with
  | initialization =>
      have hm : ws.priority = Priority.medium := hmed (Or.inl rfl)
      refine ⟨⟨fun _ => rfl, Or.inl rfl⟩, ?_⟩
      show ws.priority.rank ≤ Priority.medium.rank
      rw [hm]
  | validateInput =>
      have hm : ws.priority = Priority.medium := hmed (Or.inr rfl)
      have hout := validateInput_priority ws hm
      constructor
      · refine ⟨?_, ?_⟩
        · intro hcontra
          rcases hcontra with hcontra | hcontra
          · exact absurd hcontra (stepExec_node_ne svc _)
          · exact absurd hcontra (stepExec_node_ne_validate svc _ (by simp))
        · exact hout
      · show ws.priority.rank ≤ (validateInputNode ws).priority.rank
        rcases hout with hout | hout <;> rw [hm, hout] <;> simp [Priority.rank]
  | analyzeSentiment =>
      have hout := analyzeSentiment_priority ws
      constructor
      · refine ⟨?_, ?_⟩
        · intro hcontra
          rcases hcontra with hcontra | hcontra
          · exact absurd hcontra (stepExec_node_ne svc _)
          · exact absurd hcontra (stepExec_node_ne_validate svc _ (by simp))
        · show (analyzeSentimentNode ws).priority = Priority.medium ∨
            (analyzeSentimentNode ws).priority = Priority.high
          rcases hout with hout | hout
          · rw [hout]; exact hrange
          · exact Or.inr hout
      · show ws.priority.rank ≤ (analyzeSentimentNode ws).priority.rank
        rcases hout with hout | hout
        · rw [hout]
        · rw [hout]
          rcases hrange with hr | hr <;> rw [hr] <;> simp [Priority.rank]
  | classifyQuestion =>
      refine ⟨⟨?_, ?_⟩, ?_⟩
      · intro hcontra
        rcases hcontra with hcontra | hcontra
        · exact absurd hcontra (stepExec_node_ne svc _)
        · exact absurd hcontra (stepExec_node_ne_validate svc _ (by simp))
      · show (classifyQuestionNode (svc.classify cc) ws).priority = _ ∨
          (classifyQuestionNode (svc.classify cc) ws).priority = _
        rw [classifyQuestion_priority]; exact hrange
      · show ws.priority.rank ≤ (classifyQuestionNode (svc.classify cc) ws).priority.rank
        rw [classifyQuestion_priority]
  | checkConfidence =>
      refine ⟨⟨?_, ?_⟩, ?_⟩
      · intro hcontra
        rcases hcontra with hcontra | hcontra
        · exact absurd hcontra (stepExec_node_ne svc _)
        · exact absurd hcontra (stepExec_node_ne_validate svc _ (by simp))
      · show (checkConfidenceNode ws).priority = _ ∨ (checkConfidenceNode ws).priority = _
        rw [checkConfidence_priority]; exact hrange
      · show ws.priority.rank ≤ (checkConfidenceNode ws).priority.rank
        rw [checkConfidence_priority]
  | routeToSpecialist =>
      exact ⟨⟨fun hcontra => by rcases hcontra with hcontra | hcontra <;> simp [stepExec] at hcontra,
        hrange⟩, le_refl _⟩
  | generateResponse =>
      refine ⟨⟨?_, ?_⟩, ?_⟩
      · intro hcontra
        rcases hcontra with hcontra | hcontra
        · exact absurd hcontra (stepExec_node_ne svc _)
        · exact absurd hcontra (stepExec_node_ne_validate svc _ (by simp))
      · show (generateResponseNode (svc.generate gc) ws).priority = _ ∨
          (generateResponseNode (svc.generate gc) ws).priority = _
        rw [generateResponse_priority]; exact hrange
      · show ws.priority.rank ≤ (generateResponseNode (svc.generate gc) ws).priority.rank
        rw [generateResponse_priority]
  | qualityCheck =>
      refine ⟨⟨?_, ?_⟩, ?_⟩
      · intro hcontra
        rcases hcontra with hcontra | hcontra
        · exact absurd hcontra (stepExec_node_ne svc _)
        · exact absurd hcontra (stepExec_node_ne_validate svc _ (by simp))
      · show (qualityCheckNode ws).priority = _ ∨ (qualityCheckNode ws).priority = _
        rw [qualityCheck_priority]; exact hrange
      · show ws.priority.rank ≤ (qualityCheckNode ws).priority.rank
        rw [qualityCheck_priority]
  | escalateToHuman =>
      exact ⟨⟨fun hcontra => by rcases hcontra with hcontra | hcontra <;> simp [stepExec] at hcontra,
        hrange⟩, le_refl _⟩
  | finalizeResponse =>
      exact ⟨⟨fun hcontra => by rcases hcontra with hcontra | hcontra <;> simp [stepExec] at hcontra,
        hrange⟩, le_refl _⟩
  | handleError =>
      exact ⟨⟨fun hcontra => by rcases hcontra with hcontra | hcontra <;> simp [stepExec] at hcontra,
        hrange⟩, le_refl _⟩
  | endNode =>
      exact ⟨⟨fun hcontra => by rcases hcontra with hcontra | hcontra <;> simp [stepExec] at hcontra,
        hrange⟩, le_refl _⟩

/-- Exhaustive description of `_should_continue_after_classification`. -/
theorem afterClassification_cases (s : WorkflowState) :
    (shouldContinueAfterClassification s = "continue" ∧ s.errors = []) ∨
    (shouldContinueAfterClassification s = "retry" ∧ s.errors ≠ [] ∧
      s.retryCount < s.maxRetries) ∨
    shouldContinueAfterClassification s = "error" := by
  unfold shouldContinueAfterClassification
  split_ifs with h1 h2
  · exact Or.inr (Or.inr rfl)
  · refine Or.inr (Or.inl ⟨rfl, ?_, ?_⟩)
    · simpa using h2
    · simp only [h2, Bool.true_and, Bool.not_eq_true, decide_eq_false_iff_not] at h1
      omega
  · refine Or.inl ⟨rfl, ?_⟩
    simpa using h2

/-- Exhaustive description of `_should_continue_after_response` (textually
the same decision procedure). -/
theorem afterResponse_cases (s : WorkflowState) :
    (shouldContinueAfterResponse s = "continue" ∧ s.errors = []) ∨
    (shouldContinueAfterResponse s = "retry" ∧ s.errors ≠ [] ∧
      s.retryCount < s.maxRetries) ∨
    shouldContinueAfterResponse s = "error" := by
  unfold shouldContinueAfterResponse
  split_ifs with h1 h2
  · exact Or.inr (Or.inr rfl)
  · refine Or.inr (Or.inl ⟨rfl, ?_, ?_⟩)
    · simpa using h2
    · simp only [h2, Bool.true_and, Bool.not_eq_true, decide_eq_false_iff_not] at h1
      omega
  · refine Or.inl ⟨rfl, ?_⟩
    simpa using h2

/-- `_should_continue_after_validation` continues exactly on a clean
state. -/
theorem afterValidation_continue (s : WorkflowState) :
    shouldContinueAfterValidation s = "continue" ↔
      (s.shouldContinue = true ∧ s.errors = []) := by
  unfold shouldContinueAfterValidation
  split_ifs with h
  · simp only [true_iff]
    constructor
    · exact (Bool.and_eq_true _ _ |>.mp h).1
    · simpa using (Bool.and_eq_true _ _ |>.mp h).2
  · constructor
    · intro hcontra; exact absurd hcontra (by decide)
    · rintro ⟨hsc, herr⟩; exact absurd (by simp [hsc, herr]) h

/-- The retry counter, budget and error log across
`_validate_input_node`. -/
theorem validateInput_retry_fields (s : WorkflowState) :
    (validateInputNode s).retryCount = s.retryCount ∧
    (validateInputNode s).maxRetries = s.maxRetries ∧
    ((validateInputNode s).errors = s.errors ∨
      (validateInputNode s).errors = s.errors ++ ["Question too short"]) := by
  simp only [validateInputNode]
  split_ifs <;> simp_all

/-- `_analyze_sentiment_node` leaves counter, budget and error log
unchanged. -/
theorem analyzeSentiment_retry_fields (s : WorkflowState) :
    (analyzeSentimentNode s).retryCount = s.retryCount ∧
    (analyzeSentimentNode s).maxRetries = s.maxRetries ∧
    (analyzeSentimentNode s).errors = s.errors := by
  simp only [analyzeSentimentNode]
  split_ifs <;> simp_all

/-- `_check_confidence_node` leaves counter, budget and error log
unchanged. -/
theorem checkConfidence_retry_fields (s : WorkflowState) :
    (checkConfidenceNode s).retryCount = s.retryCount ∧
    (checkConfidenceNode s).maxRetries = s.maxRetries ∧
    (checkConfidenceNode s).errors = s.errors := by
  simp only [checkConfidenceNode]
  cases s.classification <;> simp_all <;> split_ifs <;> simp_all

/-- `_quality_check_node` leaves counter, budget and error log
unchanged. -/
theorem qualityCheck_retry_fields (s : WorkflowState) :
    (qualityCheckNode s).retryCount = s.retryCount ∧
    (qualityCheckNode s).maxRetries = s.maxRetries ∧
    (qualityCheckNode s).errors = s.errors := by
  simp only [qualityCheckNode]
  cases s.response <;> simp <;> split_ifs <;> simp_all

/-- One super-step preserves the retry invariant. -/
theorem retry_step (svc : Services) (e : ExecState) (h : RetryInvariant e) :
    RetryInvariant (stepExec svc e) := by
  obtain ⟨h1, h2, h3, h4, h5⟩ := h
  rcases e with ⟨node, ws, cc, gc⟩
  replace h1 : ws.retryCount ≤ ws.maxRetries := h1
  replace h2 : ws.errors = [] → ws.retryCount = 0 := h2
  replace h3 : 1 ≤ ws.maxRetries := h3
  replace h4 : (node = Node.classifyQuestion ∨ node = Node.generateResponse) →
      (ws.errors = [] ∨ ws.retryCount < ws.maxRetries) := h4
  replace h5 : (node = Node.analyzeSentiment ∨ node = Node.checkConfidence ∨
      node = Node.routeToSpecialist ∨ node = Node.qualityCheck) → ws.errors = [] := h5
  cases node with
  | initialization =>
      refine ⟨?_, ?_, ?_, ?_, ?_⟩
      · show (initializeNode svc.ticketHex ws).retryCount ≤
          (initializeNode svc.ticketHex ws).maxRetries
        simp [initializeNode]
      · intro _; show (initializeNode svc.ticketHex ws).retryCount = 0
        simp [initializeNode]
      · show 1 ≤ (initializeNode svc.ticketHex ws).maxRetries
        simp [initializeNode]
      · intro hcontra
        rcases hcontra with hcontra | hcontra <;> simp [stepExec] at hcontra
      · intro hcontra
        rcases hcontra with hcontra | hcontra | hcontra | hcontra <;>
          simp [stepExec] at hcontra
  | validateInput =>
      obtain ⟨hrc, hmax, herr⟩ := validateInput_retry_fields ws
      refine ⟨?_, ?_, ?_, ?_, ?_⟩
      · show (validateInputNode ws).retryCount ≤ (validateInputNode ws).maxRetries
        rw [hrc, hmax]; exact h1
      · show (validateInputNode ws).errors = [] → (validateInputNode ws).retryCount = 0
        intro hnil; rw [hrc]
        rcases herr with herr | herr
        · exact h2 (herr ▸ hnil)
        · rw [herr] at hnil; simp at hnil
      · show 1 ≤ (validateInputNode ws).maxRetries
        rw [hmax]; exact h3
      · intro hcontra
        rcases hcontra with hcontra | hcontra <;>
          · simp only [stepExec] at hcontra
            split_ifs at hcontra <;> simp_all
      · intro htgt
        show (validateInputNode ws).errors = []
        have : (stepExec svc ⟨Node.validateInput, ws, cc, gc⟩).node =
            Node.analyzeSentiment ∨
            (stepExec svc ⟨Node.validateInput, ws, cc, gc⟩).node = Node.handleError := by
          simp only [stepExec]; split_ifs <;> simp
        rcases htgt with htgt | htgt | htgt | htgt <;>
          [skip; simp_all; simp_all; simp_all]
        -- target is analyze_sentiment: the validation routing continued
        have hcont : shouldContinueAfterValidation (validateInputNode ws) = "continue" := by
          by_contra hc
          simp only [stepExec, if_neg hc] at htgt
          exact absurd htgt (by decide)
        exact ((afterValidation_continue _).mp hcont).2
  | analyzeSentiment =>
      obtain ⟨hrc, hmax, herr⟩ := analyzeSentiment_retry_fields ws
      have hnil : ws.errors = [] := h5 (Or.inl rfl)
      refine ⟨?_, ?_, ?_, ?_, ?_⟩
      · show (analyzeSentimentNode ws).retryCount ≤ (analyzeSentimentNode ws).maxRetries
        rw [hrc, hmax]; exact h1
      · intro _; show (analyzeSentimentNode ws).retryCount = 0
        rw [hrc]; exact h2 hnil
      · show 1 ≤ (analyzeSentimentNode ws).maxRetries
        rw [hmax]; exact h3
      · intro _
        show (analyzeSentimentNode ws).errors = [] ∨ _
        exact Or.inl (herr.trans hnil)
      · intro hcontra
        rcases hcontra with hcontra | hcontra | hcontra | hcontra <;>
          simp [stepExec] at hcontra
  | classifyQuestion =>
      have hlt : ws.retryCount < ws.maxRetries := by
        rcases h4 (Or.inl rfl) with hnil | hlt
        · have := h2 hnil; omega
        · exact hlt
      set s' := classifyQuestionNode (svc.classify cc) ws with hs'
      have hfields : (s'.retryCount = ws.retryCount ∧ s'.errors = ws.errors ∧
            s'.maxRetries = ws.maxRetries) ∨
          (s'.retryCount = ws.retryCount + 1 ∧
            s'.errors = ws.errors ++ ["Classification error: " ++
              (match svc.classify cc with | .error m => m | .ok _ => "")] ∧
            s'.maxRetries = ws.maxRetries) := by
        rw [hs']; unfold classifyQuestionNode
        cases svc.classify cc
        · exact Or.inr ⟨rfl, rfl, rfl⟩
        · exact Or.inl ⟨rfl, rfl, rfl⟩
      have hcore : s'.retryCount ≤ s'.maxRetries ∧
          (s'.errors = [] → s'.retryCount = 0) ∧ 1 ≤ s'.maxRetries := by
        rcases hfields with ⟨ha, hb, hc⟩ | ⟨ha, hb, hc⟩
        · refine ⟨by omega, ?_, by omega⟩
          intro hnil; rw [hb] at hnil; rw [ha]; exact h2 hnil
        · refine ⟨by omega, ?_, by omega⟩
          intro hnil; rw [hb] at hnil; simp at hnil
      refine ⟨hcore.1, hcore.2.1, hcore.2.2, ?_, ?_⟩
      · intro htgt
        rcases afterClassification_cases s' with ⟨hr, _⟩ | ⟨hr, hne, hlt'⟩ | hr
        · -- routed to check_confidence: target is neither classify nor generate
          simp only [stepExec, hr] at htgt
          rcases htgt with htgt | htgt <;> exact absurd htgt (by decide)
        · exact Or.inr hlt'
        · simp only [stepExec, hr] at htgt
          rcases htgt with htgt | htgt <;> exact absurd htgt (by decide)
      · intro htgt
        rcases afterClassification_cases s' with ⟨hr, hnil⟩ | ⟨hr, _, _⟩ | hr <;>
          simp only [stepExec, hr] at htgt
        · -- continue: target is check_confidence, errors are clean
          exact hnil
        · rcases htgt with htgt | htgt | htgt | htgt <;> exact absurd htgt (by decide)
        · rcases htgt with htgt | htgt | htgt | htgt <;> exact absurd htgt (by decide)
  | checkConfidence =>
      obtain ⟨hrc, hmax, herr⟩ := checkConfidence_retry_fields ws
      have hnil : ws.errors = [] := h5 (Or.inr (Or.inl rfl))
      refine ⟨?_, ?_, ?_, ?_, ?_⟩
      · show (checkConfidenceNode ws).retryCount ≤ (checkConfidenceNode ws).maxRetries
        rw [hrc, hmax]; exact h1
      · intro _; show (checkConfidenceNode ws).retryCount = 0
        rw [hrc]; exact h2 hnil
      · show 1 ≤ (checkConfidenceNode ws).maxRetries
        rw [hmax]; exact h3
      · intro hcontra
        rcases hcontra with hcontra | hcontra <;>
          · simp only [stepExec] at hcontra
            split_ifs at hcontra <;> simp_all
      · intro htgt
        show (checkConfidenceNode ws).errors = []
        exact herr.trans hnil
  | routeToSpecialist =>
      have hnil : ws.errors = [] := h5 (Or.inr (Or.inr (Or.inl rfl)))
      refine ⟨h1, fun _ => h2 hnil, h3, ?_, ?_⟩
      · intro _
        show (routeToSpecialistNode ws).errors = [] ∨ _
        exact Or.inl hnil
      · intro hcontra
        rcases hcontra with hcontra | hcontra | hcontra | hcontra <;>
          simp [stepExec] at hcontra
  | generateResponse =>
      have hlt : ws.retryCount < ws.maxRetries := by
        rcases h4 (Or.inr rfl) with hnil | hlt
        · have := h2 hnil; omega
        · exact hlt
      set s' := generateResponseNode (svc.generate gc) ws with hs'
      have hfields : (s'.retryCount = ws.retryCount ∧ s'.errors = ws.errors ∧
            s'.maxRetries = ws.maxRetries) ∨
          (s'.retryCount = ws.retryCount ∧ s'.maxRetries = ws.maxRetries ∧
            ∃ msg, s'.errors = ws.errors ++ [msg]) ∨
          (s'.retryCount = ws.retryCount + 1 ∧ s'.maxRetries = ws.maxRetries ∧
            ∃ msg, s'.errors = ws.errors ++ [msg]) := by
        rw [hs']; unfold generateResponseNode
        cases ws.classification
        · exact Or.inr (Or.inl ⟨rfl, rfl, _, rfl⟩)
        · cases svc.generate gc
          · exact Or.inr (Or.inr ⟨rfl, rfl, _, rfl⟩)
          · exact Or.inl ⟨rfl, rfl, rfl⟩
      have hcore : s'.retryCount ≤ s'.maxRetries ∧
          (s'.errors = [] → s'.retryCount = 0) ∧ 1 ≤ s'.maxRetries := by
        rcases hfields with ⟨ha, hb, hc⟩ | ⟨ha, hc, msg, hb⟩ | ⟨ha, hc, msg, hb⟩
        · refine ⟨by omega, ?_, by omega⟩
          intro hnil; rw [hb] at hnil; rw [ha]; exact h2 hnil
        · refine ⟨by omega, ?_, by omega⟩
          intro hnil; rw [hb] at hnil; simp at hnil
        · refine ⟨by omega, ?_, by omega⟩
          intro hnil; rw [hb] at hnil; simp at hnil
      refine ⟨hcore.1, hcore.2.1, hcore.2.2, ?_, ?_⟩
      · intro htgt
        rcases afterResponse_cases s' with ⟨hr, _⟩ | ⟨hr, hne, hlt'⟩ | hr
        · simp only [stepExec, hr] at htgt
          rcases htgt with htgt | htgt <;> exact absurd htgt (by decide)
        · exact Or.inr hlt'
        · simp only [stepExec, hr] at htgt
          rcases htgt with htgt | htgt <;> exact absurd htgt (by decide)
      · intro htgt
        rcases afterResponse_cases s' with ⟨hr, hnil⟩ | ⟨hr, _, _⟩ | hr <;>
          simp only [stepExec, hr] at htgt
        · exact hnil
        · rcases htgt with htgt | htgt | htgt | htgt <;> exact absurd htgt (by decide)
        · rcases htgt with htgt | htgt | htgt | htgt <;> exact absurd htgt (by decide)
  | qualityCheck =>
      obtain ⟨hrc, hmax, herr⟩ := qualityCheck_retry_fields ws
      have hnil : ws.errors = [] := h5 (Or.inr (Or.inr (Or.inr rfl)))
      refine ⟨?_, ?_, ?_, ?_, ?_⟩
      · show (qualityCheckNode ws).retryCount ≤ (qualityCheckNode ws).maxRetries
        rw [hrc, hmax]; exact h1
      · intro _; show (qualityCheckNode ws).retryCount = 0
        rw [hrc]; exact h2 hnil
      · show 1 ≤ (qualityCheckNode ws).maxRetries
        rw [hmax]; exact h3
      · intro _
        show (qualityCheckNode ws).errors = [] ∨ _
        exact Or.inl (herr.trans hnil)
      · intro htgt
        have : (stepExec svc ⟨Node.qualityCheck, ws, cc, gc⟩).node =
            Node.finalizeResponse ∨
            (stepExec svc ⟨Node.qualityCheck, ws, cc, gc⟩).node = Node.generateResponse ∨
            (stepExec svc ⟨Node.qualityCheck, ws, cc, gc⟩).node = Node.escalateToHuman := by
          simp only [stepExec]; split_ifs <;> simp
        rcases htgt with htgt | htgt | htgt | htgt <;> simp_all
  | escalateToHuman =>
      refine ⟨h1, h2, h3, ?_, ?_⟩
      · intro hcontra
        rcases hcontra with hcontra | hcontra <;> simp [stepExec] at hcontra
      · intro hcontra
        rcases hcontra with hcontra | hcontra | hcontra | hcontra <;>
          simp [stepExec] at hcontra
  | finalizeResponse =>
      refine ⟨h1, h2, h3, ?_, ?_⟩
      · intro hcontra
        rcases hcontra with hcontra | hcontra <;> simp [stepExec] at hcontra
      · intro hcontra
        rcases hcontra with hcontra | hcontra | hcontra | hcontra <;>
          simp [stepExec] at hcontra
  | handleError =>
      refine ⟨h1, h2, h3, ?_, ?_⟩
      · intro hcontra
        rcases hcontra with hcontra | hcontra <;> simp [stepExec] at hcontra
      · intro hcontra
        rcases hcontra with hcontra | hcontra | hcontra | hcontra <;>
          simp [stepExec] at hcontra
  | endNode =>
      exact ⟨h1, h2, h3,
        fun htgt => h4 htgt, fun htgt => h5 htgt⟩

/-- C7: within one ticket execution, once any stage sets
`requires_escalation` to true, no later execution point has it false: the
flag is pairwise monotone along the whole visited trace, for every choice
of external services, question, context and step budget. -/
theorem c7_requiresEscalation_never_reset (svc : Services) (q : String)
    (ctx : ConversationContext) (fuel : Nat) :
    List.Pairwise
      (fun a b => a.ws.requiresEscalation = true → b.ws.requiresEscalation = true)
      (execTrace svc fuel (initialExec q ctx)) := by
  have h := execTrace_pairwise svc EscalationInvariant escalationFlag
    (fun e he => escalation_step svc e he) fuel (initialExec q ctx)
    (fun _ => rfl)
  refine h.imp ?_
  intro a b hab ha
  by_contra hb
  simp [escalationFlag, ha, hb] at hab

/-- C6: at every execution point in a single ticket lifecycle,
`retry_count` is at most `max_retries` (default 3) — one budget shared by
classification retries, generation retries and quality-triggered
regeneration — for every choice of external services, question text,
conversation context and step budget. -/
theorem c6_retryCount_le_maxRetries (svc : Services) (q : String)
    (ctx : ConversationContext) (fuel : Nat) :
    (execTrace svc fuel (initialExec q ctx)).all
      (fun e => decide (e.ws.retryCount ≤ e.ws.maxRetries)) = true := by
  have hinit : RetryInvariant (initialExec q ctx) := by
    refine ⟨?_, ?_, ?_, ?_, ?_⟩
    · show (0 : Nat) ≤ 3
      omega
    · intro _; rfl
    · show (1 : Nat) ≤ 3
      omega
    · intro hcontra
      rcases hcontra with hcontra | hcontra <;> simp [initialExec] at hcontra
    · intro hcontra
      rcases hcontra with hcontra | hcontra | hcontra | hcontra <;>
        simp [initialExec] at hcontra
  exact execTrace_all svc RetryInvariant _ (fun e he => retry_step svc e he)
    (fun e he => decide_eq_true he.1) fuel _ hinit

/-- C8: a ticket priority starts at MEDIUM and is never lowered across
stage transitions: along the whole visited trace of one ticket execution
the priority rank (LOW < MEDIUM < HIGH < URGENT) is pairwise monotone, for
every choice of external services, question, context and step budget. -/
theorem c8_priority_never_lowered (svc : Services) (q : String)
    (ctx : ConversationContext) (fuel : Nat) :
    List.Pairwise (fun a b => a.ws.priority.rank ≤ b.ws.priority.rank)
      (execTrace svc fuel (initialExec q ctx)) :=
  execTrace_pairwise svc PriorityInvariant (fun e => e.ws.priority.rank)
    (fun e he => priority_step svc e he) fuel _ ⟨fun _ => rfl, Or.inl rfl⟩

/-- C1 (code bug): with a classification service that fails once and then
succeeds forever, `process` terminates (the recursion-limit exception is
caught at the boundary) with terminal status FAILED — but its `response` is
None rather than a populated fallback: the error list is never cleared, so
one transient failure sends the graph into an endless classify loop that
exhausts the 25-step limit before any error-handler response is
attached. -/
theorem c1_transient_failure_returns_no_response :
    (process svcTransientClassify "where is my stuff" {}).status =
      TicketStatus.failed ∧
    (process svcTransientClassify "where is my stuff" {}).response = none :=
  ⟨rfl, rfl⟩

/-- C2 (code bug): a manual-escalation ticket does pass through the
ESCALATE stage and its response mentions the human handoff, but the final
state returned by `process` reports status RESOLVED, not ESCALATED:
`_finalize_response_node` unconditionally overwrites the status. -/
theorem c2_escalated_ticket_finalized_as_resolved :
    (processTrace svcGeneralOk "this is terrible" {}).any
      (fun e => decide (e.node = Node.escalateToHuman)) = true ∧
    (process svcGeneralOk "this is terrible" {}).requiresEscalation = true ∧
    (process svcGeneralOk "this is terrible" {}).status =
      TicketStatus.resolved ∧
    (process svcGeneralOk "this is terrible" {}).response.map
      (fun r => strContains r.message "human") = some true :=
  ⟨rfl, rfl, rfl, rfl⟩

/-- C3 (code bug): `submit_question` performs no queue-capacity check — a
submission to a pool whose task count already equals the configured
maximum queue size of 100 is accepted, not rejected; the only rejection in
the source is the shutdown-flag RuntimeError. -/
theorem c3_submit_without_capacity_check :
    fullPool.activeTasks.length = fullPool.maxQueueSize ∧
    fullPool.shutdownFlag = false ∧
    (submitQuestion fullPool "fresh-task-id" "please help").isOk = true ∧
    submitQuestion { fullPool with shutdownFlag := true } "fresh-task-id"
        "please help" =
      Except.error "Worker pool is shutting down" :=
  ⟨rfl, rfl, rfl, rfl⟩

/-- On input accepted by the length check, `_validate_input_node` leaves
the error log and continuation flag unchanged. -/
theorem validateInput_accept_fields (s : WorkflowState)
    (h : ¬ strLen (strTrim s.questionText) < 3) :
    (validateInputNode s).errors = s.errors ∧
      (validateInputNode s).shouldContinue = s.shouldContinue := by
  have hne : s.questionText ≠ "" := by
    intro h0
    apply h
    rw [h0]
    decide
  simp only [validateInputNode]
  rw [if_neg (by simp [hne, h])]
  split_ifs <;> simp_all

/-- C4 counterexample: a 1001-character question — trimmed length 1001,
beyond the claimed upper bound of 1000 — is not rejected by the validator
of the ticket workflow: validation routes it onward. -/
theorem c4_counterexample :
    strLen (strTrim question1001) = 1001 ∧
    shouldContinueAfterValidation
        (validateInputNode
          (initializeNode "AB12CD34" (initialWorkflowState question1001 {}))) =
      "continue" :=
  ⟨rfl, rfl⟩

/-- C4 (amended): on a clean state, VALIDATE_INPUT rejects (routes to the
error handler, hence final status FAILED) exactly when the trimmed
question length is below 3 characters; no upper length bound is enforced,
and every question of trimmed length at least 3 proceeds to sentiment
analysis. -/
theorem c4_amended (s : WorkflowState) (h1 : s.errors = [])
    (h2 : s.shouldContinue = true) :
    shouldContinueAfterValidation (validateInputNode s) = "error" ↔
      strLen (strTrim s.questionText) < 3 := by
  by_cases hlen : strLen (strTrim s.questionText) < 3
  · simp only [hlen, iff_true]
    have hreject : validateInputNode s =
        { s with errors := s.errors ++ ["Question too short"],
                 shouldContinue := false } := by
      simp only [validateInputNode]
      rw [if_pos (by simp [hlen])]
    rw [hreject]
    unfold shouldContinueAfterValidation
    rw [if_neg (by simp)]
  · obtain ⟨herr, hsc⟩ := validateInput_accept_fields s hlen
    have hcont : shouldContinueAfterValidation (validateInputNode s) =
        "continue" := by
      unfold shouldContinueAfterValidation
      rw [if_pos (by simp [herr, hsc, h1, h2])]
    rw [hcont]
    constructor
    · intro hx; exact absurd hx (by decide)
    · intro hx; exact absurd hx hlen

/-- Witness for the amended C4 theorem at the concrete two-character
question. -/
theorem c4_amended_witness :
    (initialWorkflowState "hi" {}).errors = [] ∧
    (initialWorkflowState "hi" {}).shouldContinue = true ∧
    (shouldContinueAfterValidation
        (validateInputNode (initialWorkflowState "hi" {})) = "error" ↔
      strLen (strTrim "hi") < 3) :=
  ⟨rfl, rfl, c4_amended (initialWorkflowState "hi" {}) rfl rfl⟩

/-- Order duality of the fraction comparisons. -/
theorem frac_ble_eq_not_blt (a b : Frac) : Frac.ble a b = !Frac.blt b a := by
  simp only [Frac.ble, Frac.blt]
  by_cases h : a.num * (b.den : Int) ≤ b.num * (a.den : Int)
  · rw [decide_eq_true h, decide_eq_false (by omega : ¬ b.num * (a.den : Int) < a.num * (b.den : Int))]
    rfl
  · rw [decide_eq_false h, decide_eq_true (by omega : b.num * (a.den : Int) < a.num * (b.den : Int))]
    rfl

/-- `_check_confidence_node` on a classified state whose confidence is
below the tier-adjusted threshold: the escalation flag and info are
set. -/
theorem checkConfidence_eq_of_low (s : WorkflowState) (c : ClassificationResult)
    (h : s.classification = some c)
    (hb : Frac.blt c.confidence (adjustedThreshold s) = true) :
    checkConfidenceNode s =
      { s with
        requiresEscalation := true
        escalationInfo := some
          { reason := EscalationReason.lowConfidence
            suggestedDepartment := c.category.value
            humanAgentRequired := false
            urgencyScore := Frac.sub ⟨1, 1⟩ c.confidence } } := by
  unfold adjustedThreshold at hb
  unfold checkConfidenceNode
  rw [h]
  dsimp only
  rw [if_pos hb]

/-- `_check_confidence_node` on a classified state whose confidence is not
below the tier-adjusted threshold: the state is unchanged. -/
theorem checkConfidence_eq_of_high (s : WorkflowState) (c : ClassificationResult)
    (h : s.classification = some c)
    (hb : Frac.blt c.confidence (adjustedThreshold s) = false) :
    checkConfidenceNode s = s := by
  unfold adjustedThreshold at hb
  unfold checkConfidenceNode
  rw [h]
  dsimp only
  rw [if_neg (by simp [hb])]

/-- C5 counterexample: an enterprise-tier ticket with confidence 0.70 — at
or above the adjusted threshold 0.75 × 0.9 = 0.675 and with no prior
escalation request, so the claim predicts a transition to ROUTE — is
nevertheless routed to ESCALATE by the code. -/
theorem c5_counterexample :
    enterpriseCheckState.requiresEscalation = false ∧
    enterpriseCheckState.classification =
      some { category := SupportCategory.general, confidence := pct 70 } ∧
    Frac.blt (pct 70) (adjustedThreshold enterpriseCheckState) = false ∧
    escalatesAfterCheck enterpriseCheckState = true :=
  ⟨rfl, rfl, rfl, rfl⟩

/-- C5 (amended): the node computes the tier-adjusted threshold (×0.9
enterprise, ×0.95 premium) only as a local variable and sets
`requires_escalation` when confidence falls below it, but the routing
decision afterwards compares confidence against the stored, unadjusted
threshold; a classified ticket therefore transitions to ESCALATE exactly
when escalation was already required, or confidence is below the adjusted
threshold, or confidence is below the unadjusted stored threshold. -/
theorem c5_amended (s : WorkflowState) (c : ClassificationResult)
    (h : s.classification = some c) :
    escalatesAfterCheck s = true ↔
      (s.requiresEscalation = true ∨
        Frac.blt c.confidence (adjustedThreshold s) = true ∨
        Frac.blt c.confidence s.confidenceThreshold = true) := by
  unfold escalatesAfterCheck
  cases hb : Frac.blt c.confidence (adjustedThreshold s) with
  | true =>
      rw [checkConfidence_eq_of_low s c h hb]
      simp [confidenceRouting]
  | false =>
      rw [checkConfidence_eq_of_high s c h hb]
      unfold confidenceRouting
      cases hreq : s.requiresEscalation with
      | true => simp [hreq]
      | false =>
          rw [if_neg (by simp [hreq])]
          rw [h]
          dsimp only
          rw [frac_ble_eq_not_blt]
          cases hcb : Frac.blt c.confidence s.confidenceThreshold with
          | true => simp [hcb]
          | false => simp [hcb]

/-- Witness for the amended C5 theorem at the concrete enterprise
state. -/
theorem c5_amended_witness :
    enterpriseCheckState.classification =
      some { category := SupportCategory.general, confidence := pct 70 } ∧
    (escalatesAfterCheck enterpriseCheckState = true ↔
      (enterpriseCheckState.requiresEscalation = true ∨
        Frac.blt (pct 70) (adjustedThreshold enterpriseCheckState) = true ∨
        Frac.blt (pct 70) enterpriseCheckState.confidenceThreshold = true)) :=
  ⟨rfl, c5_amended enterpriseCheckState
    { category := SupportCategory.general, confidence := pct 70 } rfl⟩

/-- Removing a present element through a filter strictly shrinks a
list. -/
theorem filter_length_lt_of_mem_not {α : Type} (p : α → Bool) :
    ∀ (l : List α) (x : α), x ∈ l → p x = false →
      (l.filter p).length < l.length := by
  intro l
  induction l with
  | nil => intro x hx hp; simp at hx
  | cons a t ih =>
      intro x hx hp
      cases hpa : p a
      · have hstep : (a :: t).filter p = t.filter p := by
          simp [List.filter_cons, hpa]
        rw [hstep, List.length_cons]
        exact Nat.lt_succ_of_le (List.length_filter_le _ _)
      · have hxt : x ∈ t := by
          rcases List.mem_cons.mp hx with rfl | hxt
          · rw [hpa] at hp; cases hp
          · exact hxt
        have hstep : (a :: t).filter p = a :: t.filter p := by
          simp [List.filter_cons, hpa]
        rw [hstep, List.length_cons, List.length_cons]
        exact Nat.succ_lt_succ (ih x hxt hp)

/-- The eviction loop never changes a list already under capacity. -/
theorem evictWhileFull_noop {R : Type} (maxSize : Nat) (fuel : Nat)
    (l : List (String × CacheEntryM R)) (h : l.length < maxSize) :
    evictWhileFull maxSize fuel l = l := by
  cases fuel with
  | zero => rfl
  | succ n =>
      unfold evictWhileFull
      rw [if_neg (by omega)]

/-- With capacity at least one and enough fuel, the eviction loop leaves
strictly fewer than `maxSize` entries. -/
theorem evictWhileFull_length {R : Type} (maxSize : Nat) (hm : 1 ≤ maxSize) :
    ∀ (fuel : Nat) (l : List (String × CacheEntryM R)), l.length ≤ fuel →
      (evictWhileFull maxSize fuel l).length ≤ maxSize - 1 := by
  intro fuel
  induction fuel with
  | zero =>
      intro l hl
      have hnil : l = [] := List.length_eq_zero.mp (by omega)
      subst hnil
      show ([] : List (String × CacheEntryM R)).length ≤ maxSize - 1
      simp
  | succ n ih =>
      intro l hl
      cases l with
      | nil =>
          unfold evictWhileFull
          split_ifs
          · simp
          · simp
      | cons a t =>
          unfold evictWhileFull
          split_ifs with hfull
          · show (evictWhileFull maxSize n t).length ≤ maxSize - 1
            exact ih t (by simp at hl; omega)
          · simp only [List.length_cons] at hfull ⊢
            omega

/-- `put` respects the size bound whenever the capacity is positive. -/
theorem cachePut_length {R : Type} (c : CacheState R) (q : String) (r : R)
    (now : Int) (hm : 1 ≤ c.maxSize) :
    (cachePut c q r now).entries.length ≤ c.maxSize := by
  unfold cachePut
  dsimp only
  have h1 := evictWhileFull_length c.maxSize hm (c.entries.length + 1)
    c.entries (by omega)
  have h2 : (eraseKey
      (evictWhileFull c.maxSize (c.entries.length + 1) c.entries)
      (cacheKey q)).length ≤
      (evictWhileFull c.maxSize (c.entries.length + 1) c.entries).length :=
    List.length_filter_le _ _
  rw [List.length_append]
  simp only [List.length_cons, List.length_nil]
  omega

/-- `get` never grows the cache. -/
theorem cacheGet_length {R : Type} (c : CacheState R) (q : String) (now : Int) :
    ((cacheGet c q now).1).entries.length ≤ c.entries.length := by
  unfold cacheGet
  dsimp only
  cases hf : c.entries.find? (fun p => p.1 = cacheKey q) with
  | none => exact le_refl _
  | some pe =>
      obtain ⟨k1, e1⟩ := pe
      have hmem : (k1, e1) ∈ c.entries := List.mem_of_find?_eq_some hf
      have hpe := List.find?_some hf
      have hk1 : k1 = cacheKey q := by simpa using hpe
      have hlt : (eraseKey c.entries (cacheKey q)).length < c.entries.length := by
        refine filter_length_lt_of_mem_not _ c.entries (k1, e1) hmem ?_
        simp [hk1]
      dsimp only
      split_ifs
      · exact le_of_lt hlt
      · dsimp only
        rw [List.length_append]
        simp only [List.length_cons, List.length_nil]
        omega

/-- Fields other than the entry list are untouched by every operation. -/
theorem applyOp_fields {R : Type} (c : CacheState R) (op : CacheOp R) :
    (applyOp c op).maxSize = c.maxSize ∧ (applyOp c op).ttlSeconds = c.ttlSeconds := by
  cases op with
  | put q r now => exact ⟨rfl, rfl⟩
  | get q now =>
      show (cacheGet c q now).1.maxSize = c.maxSize ∧
        (cacheGet c q now).1.ttlSeconds = c.ttlSeconds
      unfold cacheGet
      dsimp only
      cases hf : c.entries.find? (fun p => p.1 = cacheKey q) with
      | none => exact ⟨rfl, rfl⟩
      | some pe =>
          obtain ⟨k1, e1⟩ := pe
          dsimp only
          split_ifs <;> exact ⟨rfl, rfl⟩
  | invalidate q =>
      show (cacheInvalidate c q).1.maxSize = c.maxSize ∧
        (cacheInvalidate c q).1.ttlSeconds = c.ttlSeconds
      unfold cacheInvalidate
      dsimp only
      split_ifs <;> exact ⟨rfl, rfl⟩
  | cleanupExpired now => exact ⟨rfl, rfl⟩
  | optimizeCache now => exact ⟨rfl, rfl⟩
  | importData items now => exact ⟨rfl, rfl⟩

/-- Every operation other than `import_cache_data` keeps the entry count
within `max_size`. -/
theorem applyOp_length_le {R : Type} (c : CacheState R) (op : CacheOp R)
    (hm : 1 ≤ c.maxSize) (h : c.entries.length ≤ c.maxSize)
    (hni : op.isImport = false) :
    (applyOp c op).entries.length ≤ c.maxSize := by
  cases op with
  | put q r now => exact cachePut_length c q r now hm
  | get q now => exact le_trans (cacheGet_length c q now) h
  | invalidate q =>
      refine le_trans ?_ h
      show (cacheInvalidate c q).1.entries.length ≤ c.entries.length
      unfold cacheInvalidate
      dsimp only
      split_ifs
      · exact List.length_filter_le _ _
      · exact le_refl _
  | cleanupExpired now =>
      refine le_trans ?_ h
      show (cacheCleanupExpired c now).1.entries.length ≤ c.entries.length
      exact List.length_filter_le _ _
  | optimizeCache now =>
      refine le_trans ?_ h
      show (cacheOptimize c now).entries.length ≤ c.entries.length
      unfold cacheOptimize
      dsimp only
      split_ifs
      · exact le_trans (List.length_filter_le _ _) (List.length_filter_le _ _)
      · exact List.length_filter_le _ _
  | importData items now => simp [CacheOp.isImport] at hni

/-- Size bound along any import-free operation sequence. -/
theorem applyOps_length {R : Type} :
    ∀ (ops : List (CacheOp R)) (c : CacheState R), 1 ≤ c.maxSize →
      c.entries.length ≤ c.maxSize →
      (∀ op ∈ ops, op.isImport = false) →
      (applyOps c ops).entries.length ≤ c.maxSize := by
  intro ops
  induction ops with
  | nil => intro c _ h0 _; exact h0
  | cons op rest ih =>
      intro c hm h0 hni
      have h1 := applyOp_length_le c op hm h0 (hni op (List.mem_cons_self op rest))
      have hf := (applyOp_fields c op).1
      have h2 := ih (applyOp c op) (by rw [hf]; exact hm) (by rw [hf]; exact h1)
        (fun o ho => hni o (List.mem_cons_of_mem op ho))
      rw [hf] at h2
      exact h2

/-- At capacity the eviction loop removes exactly the least-recently-used
head entry. -/
theorem evictWhileFull_at_capacity {R : Type} (maxSize : Nat) (hm : 1 ≤ maxSize)
    (a : String × CacheEntryM R) (t : List (String × CacheEntryM R))
    (hfull : (a :: t).length = maxSize) :
    evictWhileFull maxSize ((a :: t).length + 1) (a :: t) = t := by
  show evictWhileFull maxSize (t.length + 1 + 1) (a :: t) = t
  unfold evictWhileFull
  rw [if_pos (by simp only [List.length_cons] at hfull ⊢; omega)]
  exact evictWhileFull_noop maxSize (t.length + 1) t
    (by simp only [List.length_cons] at hfull; omega)

/-- A `put` at capacity drops the least-recently-used entry before
storing. -/
theorem cachePut_at_capacity {R : Type} (c : CacheState R) (q : String)
    (r : R) (now : Int) (hm : 1 ≤ c.maxSize)
    (hfull : c.entries.length = c.maxSize) :
    (cachePut c q r now).entries =
      eraseKey c.entries.tail (cacheKey q) ++
        [(cacheKey q, freshEntry q r now)] := by
  unfold cachePut
  dsimp only
  cases hc : c.entries with
  | nil =>
      rw [hc] at hfull
      simp at hfull
      omega
  | cons a t =>
      rw [hc] at hfull
      rw [evictWhileFull_at_capacity c.maxSize hm a t hfull]
      rfl

/-- C9 counterexample: with `max_size = 1` and one stored entry,
`import_cache_data` assigns a second, unexpired entry into the dictionary
before its size check fires, leaving 2 > 1 entries after the operation
completes. -/
theorem c9_counterexample :
    singletonCache.maxSize = 1 ∧
    singletonCache.entries.length = 1 ∧
    ((cacheImportData singletonCache [("key b", importedEntry)] 0).1).entries.length = 2 :=
  ⟨rfl, rfl, rfl⟩

/-- C9 (amended): after any sequence of put, get, invalidate,
cleanup_expired and optimize_cache operations on a cache whose size starts
within a positive capacity, the number of stored entries stays at most
`max_size`, and a put at capacity evicts the least-recently-used entry
first; `import_cache_data` alone is exempt — at capacity it can leave the
cache one entry above the bound, because it inserts before checking
size. -/
theorem c9_amended :
    (∀ (R : Type) (c : CacheState R) (ops : List (CacheOp R)),
        1 ≤ c.maxSize → c.entries.length ≤ c.maxSize →
        (∀ op ∈ ops, op.isImport = false) →
        (applyOps c ops).entries.length ≤ c.maxSize) ∧
    (∀ (R : Type) (c : CacheState R) (q : String) (r : R) (now : Int),
        1 ≤ c.maxSize → c.entries.length = c.maxSize →
        (cachePut c q r now).entries =
          eraseKey c.entries.tail (cacheKey q) ++
            [(cacheKey q, freshEntry q r now)]) :=
  ⟨fun R c ops hm h0 hni => applyOps_length ops c hm h0 hni,
   fun R c q r now hm hfull => cachePut_at_capacity c q r now hm hfull⟩

/-- Witness for the amended C9 theorem: a concrete import-free sequence on
a one-slot cache, and a concrete at-capacity put on the two-slot cache. -/
theorem c9_amended_witness :
    ((applyOps (emptyCache String 1 3600)
        [CacheOp.put "question a" "answer a" 0,
         CacheOp.get "question a" 5,
         CacheOp.put "question b" "answer b" 9]).entries.length ≤
      (emptyCache String 1 3600).maxSize) ∧
    ((cachePut twoSlotCache "question c" "answer c" 2).entries =
      eraseKey twoSlotCache.entries.tail (cacheKey "question c") ++
        [(cacheKey "question c", freshEntry "question c" "answer c" 2)]) :=
  ⟨c9_amended.1 String (emptyCache String 1 3600) _ (by decide) (by decide)
      (by decide),
   c9_amended.2 String twoSlotCache "question c" "answer c" 2 (by decide)
      (by decide)⟩

/-- C10: when the cache is at capacity, a `put` whose key is already
present still evicts the current least-recently-used entry before storing:
if that entry has a different key than the one being replaced, it is gone
afterwards — replacing an existing key can remove an unrelated entry. -/
theorem c10_put_existing_key_evicts_lru (R : Type) (c : CacheState R)
    (q : String) (r : R) (now : Int) (k0 : String) (e0 : CacheEntryM R)
    (rest : List (String × CacheEntryM R))
    (hm : 1 ≤ c.maxSize) (hfull : c.entries.length = c.maxSize)
    (hshape : c.entries = (k0, e0) :: rest)
    (hpresent : cacheKey q ∈ c.entries.map Prod.fst)
    (hnodup : (c.entries.map Prod.fst).Nodup)
    (hne : k0 ≠ cacheKey q) :
    k0 ∉ (cachePut c q r now).entries.map Prod.fst := by
  rw [cachePut_at_capacity c q r now hm hfull, hshape]
  dsimp only [List.tail_cons]
  intro hmem
  rw [List.map_append] at hmem
  rcases List.mem_append.mp hmem with hmem | hmem
  · have hk0rest : k0 ∈ rest.map Prod.fst := by
      obtain ⟨p, hp, hpk⟩ := List.mem_map.mp hmem
      exact List.mem_map.mpr ⟨p, (List.mem_filter.mp hp).1, hpk⟩
    rw [hshape] at hnodup
    simp only [List.map_cons, List.nodup_cons] at hnodup
    exact hnodup.1 hk0rest
  · simp at hmem
    exact hne hmem

/-- Witness for C10: the two-slot cache at capacity; putting the already
present question b evicts the unrelated question a. -/
theorem c10_witness :
    twoSlotCache.entries.length = twoSlotCache.maxSize ∧
    cacheKey "question b" ∈ twoSlotCache.entries.map Prod.fst ∧
    "question a" ∉
      (cachePut twoSlotCache "question b" "answer b2" 2).entries.map Prod.fst :=
  ⟨by decide, by decide,
   c10_put_existing_key_evicts_lru String twoSlotCache "question b"
     "answer b2" 2 "question a" (freshEntry "question a" "answer a" 0)
     [("question b", freshEntry "question b" "answer b" 1)]
     (by decide) (by decide) (by decide) (by decide) (by decide) (by decide)⟩

end SupportAgent
